import Mathlib

/-!
# Verification of the bandirma-deprem ingestion and alarm pipeline

Shallow embedding of the core of `main.py`, `turkiye_alarm.py` and the
spec-described store contract. Conventions:

* SQLite `REAL` columns and Python floats are modelled as `ℚ` (exact
  arithmetic); the claims under study do not depend on floating-point
  rounding.
* `event_time` is stored in the database as an ISO-8601 UTC string with a
  fixed `+00:00` suffix; equality and ordering of such strings coincide with
  equality and ordering of the instants they denote, so times are modelled
  as `ℤ` (Unix epoch seconds).
* Transcendental functions (`math.sin`, `math.sqrt`, …) are modelled over
  `ℝ` in the geometry section; where an alarm function merely *consumes*
  such a value (a distance already computed, `math.sqrt` of a window
  length) the value is taken as a parameter so that the rule logic stays
  executable.
-/

namespace Deprem

/-! ## Data model (`main.py`)

`parse_koeri_lst6` produces event dicts with keys
`event_time, latitude, longitude, depth_km, magnitude, location`.
`upsert_events` reads `event_time/latitude/longitude` with mandatory
indexing and the other three with `.get`, so the latter are optional here. -/

/-- An event dict handed to `upsert_events` (`main.py`). Optional fields
model `e.get(...)` returning `None` for a missing key. -/
structure EventDict where
  event_time : ℤ
  latitude : ℚ
  longitude : ℚ
  depth_km : Option ℚ
  magnitude : Option ℚ
  location : Option String
deriving DecidableEq, Repr

/-- One stored row of the `earthquakes` table, restricted to the columns of
the unique index `uq_quake` (`event_time, latitude, longitude, magnitude,
depth_km, location`); the surrogate `id` column takes no part in any claim.
Rows inserted by `upsert_events` never contain SQL `NULL`, so the fields are
total. -/
structure Row where
  event_time : ℤ
  latitude : ℚ
  longitude : ℚ
  depth_km : ℚ
  magnitude : ℚ
  location : String
deriving DecidableEq, Repr

/-- Python `x or default` for a numeric optional: `float(e.get(k) or 0.0)`.
`None` and the falsy number `0.0` both yield the default. -/
def pyOrQ (o : Option ℚ) : ℚ :=
  match o with
  | none => 0
  | some v => if v = 0 then 0 else v

/-- Python `str(e.get("location") or "-")`: `None` and the falsy empty
string both yield `"-"`. -/
def pyOrLoc (o : Option String) : String :=
  match o with
  | none => "-"
  | some s => if s = "" then "-" else s

/-- The tuple bound by the `INSERT OR IGNORE` statement in `upsert_events`
(`main.py` lines 236-250). -/
def rowOf (e : EventDict) : Row :=
  { event_time := e.event_time
    latitude := e.latitude
    longitude := e.longitude
    depth_km := pyOrQ e.depth_km
    magnitude := pyOrQ e.magnitude
    location := pyOrLoc e.location }

/-- `upsert_events` (`main.py` lines 229-258): for each event, `INSERT OR
IGNORE` against the unique index on the full column tuple; `cur.rowcount = 1`
exactly when the tuple was not already present. Returns the new table
contents and the number actually inserted. -/
def upsert_events (store : List Row) (events : List EventDict) : List Row × ℕ :=
  match events with
  | [] => (store, 0)
  | e :: es =>
    let r := rowOf e
    if r ∈ store then
      upsert_events store es
    else
      let out := upsert_events (store ++ [r]) es
      (out.1, out.2 + 1)

/-! ## Capacity enforcement (spec §4.3, no implementation under `src/`) -/

/-- Newest-first comparison on stored rows. -/
def newestFirst (a b : Row) : Bool := b.event_time ≤ a.event_time

/-- Modelled from the spec: `enforce_capacity(max_rows) -> int` is part of
the Event Store contract in spec §4.3 but no such function exists in the
repository's source; per the spec, if the stored count exceeds `max_rows`
it deletes the oldest-by-`event_time` excess records and returns the count
deleted. -/
def enforce_capacity (maxRows : ℕ) (store : List Row) : List Row × ℕ :=
  if store.length ≤ maxRows then (store, 0)
  else ((store.mergeSort newestFirst).take maxRows, store.length - maxRows)

/-! ## Per-line normalization (`parse_koeri_lst6`, `main.py` lines 94-133)

The body of the per-line loop, after the header-line prefilter of line 91
(which belongs to the excluded lexical-scraping collaborator). Tokens are
the result of `ln.split()`. Python `float()` is modelled on plain signed
decimal literals (`-12`, `3.2`, `40.`, `.5`), the shape of every numeric
token of the feed; the exotic forms Python also accepts (exponents,
`inf`/`nan`, underscores) do not occur in whitespace-split KOERI fields and
are outside the model. -/

/-- Numeric value of a decimal digit character. -/
def digitVal (c : Char) : ℕ := c.toNat - 48

/-- Value of a digit string read left to right. -/
def digitsVal (l : List Char) : ℕ := l.foldl (fun a c => 10 * a + digitVal c) 0

/-- Unsigned part of Python `float()` on a plain decimal literal:
digits, an optional dot, digits, with at least one digit in total. -/
def pyFloatCore (l : List Char) : Option ℚ :=
  let intPart := l.takeWhile (·.isDigit)
  let rest := l.dropWhile (·.isDigit)
  match rest with
  | [] => if intPart.isEmpty then none else some ((digitsVal intPart : ℚ))
  | c :: frac =>
    if (c == '.') && frac.all (·.isDigit) && !(intPart.isEmpty && frac.isEmpty) then
      some ((digitsVal intPart : ℚ) + (digitsVal frac : ℚ) / 10 ^ frac.length)
    else none

/-- Python `float()` on a token, with an optional leading sign. -/
def pyFloat? (s : String) : Option ℚ :=
  match s.data with
  | '-' :: rest => (pyFloatCore rest).map (fun q => -q)
  | '+' :: rest => pyFloatCore rest
  | l => pyFloatCore l

/-- The date-token regex `^\d{4}\.\d{2}\.\d{2}$` (`main.py` line 99)
together with the field extraction performed later by `strptime`:
`some (year, month, day)` exactly when the regex matches. -/
def parseDate (s : String) : Option (ℤ × ℤ × ℤ) :=
  match s.data with
  | [a, b, c, d, p, e, f, q, g, h] =>
    if (p == '.') && (q == '.') && a.isDigit && b.isDigit && c.isDigit && d.isDigit &&
        e.isDigit && f.isDigit && g.isDigit && h.isDigit then
      some (((1000 * digitVal a + 100 * digitVal b + 10 * digitVal c + digitVal d : ℕ) : ℤ),
            ((10 * digitVal e + digitVal f : ℕ) : ℤ),
            ((10 * digitVal g + digitVal h : ℕ) : ℤ))
    else none
  | _ => none

/-- The time-token regex `^\d{2}:\d{2}:\d{2}$` (`main.py` line 101) with
field extraction: `some (hour, minute, second)` exactly when it matches. -/
def parseTime (s : String) : Option (ℤ × ℤ × ℤ) :=
  match s.data with
  | [a, b, p, c, d, q, e, f] =>
    if (p == ':') && (q == ':') && a.isDigit && b.isDigit && c.isDigit && d.isDigit &&
        e.isDigit && f.isDigit then
      some (((10 * digitVal a + digitVal b : ℕ) : ℤ),
            ((10 * digitVal c + digitVal d : ℕ) : ℤ),
            ((10 * digitVal e + digitVal f : ℕ) : ℤ))
    else none
  | _ => none

/-- Gregorian leap-year rule, as used by Python `datetime`. -/
def isLeap (y : ℤ) : Bool := (y % 4 == 0 && !(y % 100 == 0)) || (y % 400 == 0)

/-- Length of a month, as validated by the `datetime` constructor. -/
def daysInMonth (y m : ℤ) : ℤ :=
  if m = 2 then (if isLeap y then 29 else 28)
  else if m = 4 ∨ m = 6 ∨ m = 9 ∨ m = 11 then 30
  else 31

/-- The validation performed by
`datetime.strptime(f"{date_s} {time_s}", "%Y.%m.%d %H:%M:%S")` on fields
that already matched the two regexes: year ≥ 1 (`datetime.MINYEAR`), month
in 1..12, day valid for the month, hour ≤ 23, minute ≤ 59, second ≤ 59. -/
def validDateTime (y m d h mi s : ℤ) : Bool :=
  decide (1 ≤ y) && decide (1 ≤ m) && decide (m ≤ 12) && decide (1 ≤ d) &&
    decide (d ≤ daysInMonth y m) && decide (h ≤ 23) && decide (mi ≤ 59) && decide (s ≤ 59)

/-- Days from the Unix epoch to a civil date (standard civil-from-days
inverse; all intermediate divisions act on non-negative values for
`y ≥ 1`, the only range `parse_line` uses). -/
def daysFromCivil (y m d : ℤ) : ℤ :=
  let y2 := if m ≤ 2 then y - 1 else y
  let era := (if 0 ≤ y2 then y2 else y2 - 399) / 400
  let yoe := y2 - era * 400
  let doy := (153 * (m + (if 2 < m then -3 else 9)) + 2) / 5 + d - 1
  let doe := yoe * 365 + yoe / 4 - yoe / 100 + doy
  era * 146097 + doe - 719468

/-- Unix epoch seconds of a civil date-time read as if it were UTC. -/
def civilEpochSec (y m d h mi s : ℤ) : ℤ :=
  daysFromCivil y m d * 86400 + h * 3600 + mi * 60 + s

/-- Magnitude scan (`main.py` lines 111-119): the first token among
positions `5 .. min(len, 12) - 1` that converts to a float in `[0, 10]`. -/
def findMag (parts : List String) : Option ℚ :=
  ((parts.drop 5).take 7).findSome? fun tok =>
    match pyFloat? tok with
    | some x => if 0 ≤ x ∧ x ≤ 10 then some x else none
    | none => none

/-- Python `str.strip()` on the character list of a string. -/
def trimChars (l : List Char) : List Char :=
  ((l.dropWhile (·.isWhitespace)).reverse.dropWhile (·.isWhitespace)).reverse

/-- Python `" ".join(tokens)`. -/
def joinSpace : List String → List Char
  | [] => []
  | [s] => s.data
  | s :: rest => s.data ++ ' ' :: joinSpace rest

/-- Location text (`main.py` lines 123-125): join of tokens from index 8,
stripped; `"-"` when empty. -/
def locationOf (parts : List String) : String :=
  let loc0 := String.mk (trimChars (joinSpace (parts.drop 8)))
  if loc0 = "" then "-" else loc0

/-- One iteration of the parse loop of `parse_koeri_lst6` (`main.py` lines
94-133): token-count gate, date/time regexes, float conversion of
latitude/longitude/depth, magnitude scan, location text, `strptime`
validation, and conversion of the feed's fixed UTC+3 local clock
(`tz_tr()`, lines 59-60 and 127-131) to UTC epoch seconds. -/
def parse_line (parts : List String) : Option EventDict :=
  if parts.length < 9 then none
  else
    match parseDate (parts.getD 0 ""), parseTime (parts.getD 1 "") with
    | some (y, m, d), some (h, mi, s) =>
      match pyFloat? (parts.getD 2 ""), pyFloat? (parts.getD 3 ""), pyFloat? (parts.getD 4 "") with
      | some lat, some lon, some depth =>
        match findMag parts with
        | some mag =>
          if validDateTime y m d h mi s then
            some { event_time := civilEpochSec y m d h mi s - 3 * 3600
                   latitude := lat
                   longitude := lon
                   depth_km := some depth
                   magnitude := some mag
                   location := some (locationOf parts) }
          else none
        | none => none
      | _, _, _ => none
    | _, _ => none

/-- "Date/time parsable": both tokens match their regex and survive
`strptime` validation. -/
def date_time_ok (parts : List String) : Bool :=
  match parseDate (parts.getD 0 ""), parseTime (parts.getD 1 "") with
  | some (y, m, d), some (h, mi, s) => validDateTime y m d h mi s
  | _, _ => false

/-- A well-formed feed line except that its latitude, `95.0`, lies outside
`±90`. -/
def badLatLine : List String :=
  ["2025.01.02", "03:04:05", "95.0", "27.0", "7.0", "3.2", "0.0", "0.0", "SOMEWHERE"]

/-- A fully well-formed feed line. -/
def goodLine : List String :=
  ["2025.01.02", "03:04:05", "40.0", "27.0", "7.0", "3.2", "0.0", "0.0", "EGE"]

/-- The event `parse_line` extracts from `goodLine`. -/
def eGood : EventDict :=
  { event_time := 1735776245, latitude := 40, longitude := 27,
    depth_km := some 7, magnitude := some (16/5), location := some "EGE" }

/-- Two feed lines identical except for the fifth decimal of latitude
(`40.35221` vs `40.35222`), which the spec's claimed 4-decimal rounding
would identify. -/
def lineA : List String :=
  ["2025.01.02", "03:04:05", "40.35221", "27.9767", "7.0", "3.2", "0.0", "0.0", "BANDIRMA"]

/-- See `lineA`. -/
def lineB : List String :=
  ["2025.01.02", "03:04:05", "40.35222", "27.9767", "7.0", "3.2", "0.0", "0.0", "BANDIRMA"]

/-- The event `parse_line` extracts from `lineA`. -/
def eA : EventDict :=
  { event_time := 1735776245, latitude := 4035221/100000, longitude := 279767/10000,
    depth_km := some 7, magnitude := some (16/5), location := some "BANDIRMA" }

/-- The event `parse_line` extracts from `lineB`. -/
def eB : EventDict :=
  { event_time := 1735776245, latitude := 4035222/100000, longitude := 279767/10000,
    depth_km := some 7, magnitude := some (16/5), location := some "BANDIRMA" }

/-- The event `parse_line` extracts from `badLatLine`. -/
def eBadLat : EventDict :=
  { event_time := 1735776245, latitude := 95, longitude := 27,
    depth_km := some 7, magnitude := some (16/5), location := some "SOMEWHERE" }

/-- Modelled from the spec: rounding to 4 decimals, for the fingerprint the
spec describes (no rounding exists anywhere in the source). -/
def round4 (x : ℚ) : ℚ := (round (x * 10000) : ℤ) / 10000

/-- Modelled from the spec: rounding to 1 decimal, for the fingerprint the
spec describes. -/
def round1 (x : ℚ) : ℚ := (round (x * 10) : ℤ) / 10

/-- Modelled from the spec: the dedup key claim C3 describes — event time,
latitude/longitude rounded to 4 decimals, magnitude/depth rounded to 1
decimal, trimmed location. The key the code actually enforces (unique
index `uq_quake`, `main.py` lines 219-225) is the raw column tuple, i.e.
the `Row` itself. -/
def fingerprint_spec (r : Row) : ℤ × ℚ × ℚ × ℚ × ℚ × String :=
  (r.event_time, round4 r.latitude, round4 r.longitude, round1 r.magnitude,
   round1 r.depth_km, String.mk (trimChars r.location.data))

/-! ## Alarm evaluation (`turkiye_alarm.py`)

`get_rows_since` hands the evaluators dict rows holding a UTC instant
(`dt`), coordinates and an optional magnitude (`float(mag) if mag is not
None else None`); depth/location/source play no part in any rule. -/

/-- Alarm status of `turkiye_alarm.py`: `"YOK"` (none) / `"TURUNCU"`
(orange) / `"KIRMIZI"` (red). -/
inductive Status
  | YOK
  | TURUNCU
  | KIRMIZI
deriving DecidableEq, Repr

/-- Severity order: none < orange < red. -/
def Status.rank : Status → ℕ
  | .YOK => 0
  | .TURUNCU => 1
  | .KIRMIZI => 2

/-- A row as produced by `get_rows_since` (`turkiye_alarm.py` lines
73-138), restricted to the fields the evaluators read. -/
structure ARow where
  dt : ℤ
  latitude : ℚ
  longitude : ℚ
  magnitude : Option ℚ
deriving DecidableEq, Repr

/-- Python `max(list, default=0.0)`: the default only when the list is
empty, otherwise the genuine maximum. -/
def pyMax (l : List ℚ) : ℚ :=
  match l with
  | [] => 0
  | m :: ms => ms.foldl max m

/-- `sum(1 for x in rows if x["magnitude"] is not None and x["magnitude"] >= thr)`. -/
def magCount (rows : List ARow) (thr : ℚ) : ℕ :=
  rows.countP fun x =>
    match x.magnitude with
    | some m => decide (thr ≤ m)
    | none => false

/-- `max([x["magnitude"] for x in rows if x["magnitude"] is not None], default=0.0)`. -/
def magMax (rows : List ARow) : ℚ := pyMax (rows.filterMap (·.magnitude))

/-- The 24-hour slice `r24` of `turkey_cluster_alert`. -/
def tr24 (now : ℤ) (rows : List ARow) : List ARow :=
  rows.filter fun x => now - 86400 ≤ x.dt

/-- The 7-day slice `r7` of `turkey_cluster_alert`. -/
def tr7 (now : ℤ) (rows : List ARow) : List ARow :=
  rows.filter fun x => now - 7 * 86400 ≤ x.dt

/-- The six rules of `turkey_cluster_alert`; the code renders each matched
rule as a formatted reason string, modelled here as a tag. -/
inductive TReason
  | o24h -- 24h: count(M ≥ 3.0) ≥ 40 and max(24h) ≥ 4.0
  | o7d -- 7d: count(M ≥ 3.0) ≥ 25 and count(M ≥ 4.0) ≥ 2
  | o30d -- 30d: count(M ≥ 5.0) ≥ 1
  | r7d -- 7d: count(M ≥ 6.5) ≥ 1
  | r30d -- 30d: count(M ≥ 5.8) ≥ 2
  | r24h -- 24h: count(M ≥ 4.0) ≥ 10
deriving DecidableEq, Repr

/-- The `stats` dict returned by `turkey_cluster_alert`. -/
structure TStats where
  m3_24 : ℕ
  max_24 : ℚ
  m3_7 : ℕ
  m4_7 : ℕ
  m5_30 : ℕ
  m65_7 : ℕ
  m58_30 : ℕ
  m4_24 : ℕ
deriving DecidableEq, Repr

/-- `turkey_cluster_alert(rows_30d)` (`turkiye_alarm.py` lines 144-207):
windowed counts, orange and red reason lists, and the status derived from
their non-emptiness (red wins over orange). -/
def turkey_cluster_alert (now : ℤ) (rows30 : List ARow) :
    Status × List TReason × List TReason × TStats :=
  let r24 := tr24 now rows30
  let r7 := tr7 now rows30
  let r30 := rows30
  let m3_24 := magCount r24 3
  let max_24 := magMax r24
  let m3_7 := magCount r7 3
  let m4_7 := magCount r7 4
  let m5_30 := magCount r30 5
  let m65_7 := magCount r7 (13/2)
  let m58_30 := magCount r30 (29/5)
  let m4_24 := magCount r24 4
  let orange_reasons :=
    (if 40 ≤ m3_24 ∧ 4 ≤ max_24 then [TReason.o24h] else []) ++
    (if 25 ≤ m3_7 ∧ 2 ≤ m4_7 then [TReason.o7d] else []) ++
    (if 1 ≤ m5_30 then [TReason.o30d] else [])
  let red_reasons :=
    (if 1 ≤ m65_7 then [TReason.r7d] else []) ++
    (if 2 ≤ m58_30 then [TReason.r30d] else []) ++
    (if 10 ≤ m4_24 then [TReason.r24h] else [])
  let status :=
    if red_reasons ≠ [] then Status.KIRMIZI
    else if orange_reasons ≠ [] then Status.TURUNCU
    else Status.YOK
  (status, orange_reasons, red_reasons,
    ⟨m3_24, max_24, m3_7, m4_7, m5_30, m65_7, m58_30, m4_24⟩)

/-- The red condition of `turkey_cluster_alert`, as one proposition. -/
def turkeyRed (now : ℤ) (rows30 : List ARow) : Prop :=
  1 ≤ magCount (tr7 now rows30) (13/2) ∨ 2 ≤ magCount rows30 (29/5) ∨
    10 ≤ magCount (tr24 now rows30) 4

/-- The orange condition of `turkey_cluster_alert`, as one proposition. -/
def turkeyOrange (now : ℤ) (rows30 : List ARow) : Prop :=
  (40 ≤ magCount (tr24 now rows30) 3 ∧ 4 ≤ magMax (tr24 now rows30)) ∨
    (25 ≤ magCount (tr7 now rows30) 3 ∧ 2 ≤ magCount (tr7 now rows30) 4) ∨
    1 ≤ magCount rows30 5

instance (now : ℤ) (rows30 : List ARow) : Decidable (turkeyRed now rows30) := by
  unfold turkeyRed; infer_instance

instance (now : ℤ) (rows30 : List ARow) : Decidable (turkeyOrange now rows30) := by
  unfold turkeyOrange; infer_instance

/-- The `stats` dict returned by `bandirma_alert`. -/
structure BStats where
  count_30_in : ℕ
  count_14_in : ℕ
  orange_hits : ℕ
  red_hits : ℕ
deriving DecidableEq, Repr

/-- An orange hit of `bandirma_alert`: magnitude present and ≥ 5.0. -/
def bOrangeHit (x : ARow) : Bool :=
  match x.magnitude with
  | some m => decide (5 ≤ m)
  | none => false

/-- A red hit of `bandirma_alert`: magnitude present and ≥ 5.5. -/
def bRedHit (x : ARow) : Bool :=
  match x.magnitude with
  | some m => decide (11/2 ≤ m)
  | none => false

/-- `bandirma_alert(rows_30d, radius_km)` (`turkiye_alarm.py` lines
213-259). The haversine radius test
`haversine_km(BANDIRMA_LAT, BANDIRMA_LON, x.lat, x.lon) <= radius_km`
is abstracted as the Boolean parameter `inRadius`, since the rule logic is
independent of the metric (the haversine itself is embedded over `ℝ` in
the geometry section). -/
def bandirma_alert (inRadius : ARow → Bool) (now : ℤ) (rows30 : List ARow) :
    Status × List ARow × List ARow × BStats :=
  let r30 := rows30
  let r14 := rows30.filter fun x => now - 14 * 86400 ≤ x.dt
  let r30_in := r30.filter inRadius
  let r14_in := r14.filter inRadius
  let orange_hits := r30_in.filter bOrangeHit
  let red_hits := r14_in.filter bRedHit
  let status :=
    if red_hits ≠ [] then Status.KIRMIZI
    else if orange_hits ≠ [] then Status.TURUNCU
    else Status.YOK
  let key := fun x : ARow => x.magnitude.getD 0
  let orange_top := (orange_hits.mergeSort fun a b => decide (key b ≤ key a)).take 5
  let red_top := (red_hits.mergeSort fun a b => decide (key b ≤ key a)).take 5
  (status, orange_top, red_top, ⟨r30_in.length, r14_in.length, orange_hits.length, red_hits.length⟩)

/-! ## Combined-score alarm with quick trigger (`main.py` lines 328-400) -/

/-- Alarm level of `compute_alarm_status` in `main.py`. -/
inductive Level
  | NORMAL
  | ORANGE
  | RED
deriving DecidableEq, Repr

/-- Severity order: NORMAL < ORANGE < RED. -/
def Level.rank : Level → ℕ
  | .NORMAL => 0
  | .ORANGE => 1
  | .RED => 2

/-- A stored row as consumed by `fetch_bandirma_events_for_window`
(`main.py` lines 292-322): time, magnitude after `float(mag or 0.0)`, and
the row's haversine distance from the Bandırma center. The distance is
carried as a field because the alarm logic only compares it to the radius;
the haversine itself is embedded over `ℝ` in the geometry section. -/
structure BRow where
  t : ℤ
  mag : ℚ
  dist : ℚ
deriving DecidableEq, Repr

/-- `fetch_bandirma_events_for_window(db_path, days)`: rows with
`event_time ≥ now - days` (ISO-string comparison = instant comparison)
whose distance from the center is at most the radius. -/
def fetch_bandirma_events_for_window (radius : ℚ) (now : ℤ) (store : List BRow)
    (days : ℤ) : List BRow :=
  (store.filter fun r => now - days * 86400 ≤ r.t).filter fun r => r.dist ≤ radius

/-- `event_weight(mag)` (`main.py` lines 328-339). -/
def event_weight (mag : ℚ) : ℚ :=
  if mag ≤ 0 then 0 else 1 + max (mag - 3/2) 0

/-- `quick_days = max(1, ceil(QUICK_HOURS / 24.0))`. -/
def quick_days (quickHours : ℤ) : ℤ := max 1 ⌈(quickHours : ℚ) / 24⌉

/-- `max_mag_quick`: maximum magnitude among rows of the quick-day fetch
that lie within the last `QUICK_HOURS` hours (`main.py` lines 347-361). -/
def max_mag_quick (radius : ℚ) (quickHours now : ℤ) (store : List BRow) : ℚ :=
  pyMax (((fetch_bandirma_events_for_window radius now store (quick_days quickHours)).filter
    fun r => now - quickHours * 3600 ≤ r.t).map (·.mag))

/-- The quick trigger (`main.py` lines 362-366). -/
def quick_trigger (oQuick rQuick maxMag : ℚ) : Option Level :=
  if rQuick ≤ maxMag then some .RED
  else if oQuick ≤ maxMag then some .ORANGE
  else none

/-- One window's score: total event weight divided by `sqrt(max(w, 1))`.
`math.sqrt` is taken as an arbitrary function parameter `sqrtFn`; every
theorem below holds for all of them. -/
def window_score (sqrtFn : ℚ → ℚ) (radius : ℚ) (now : ℤ) (store : List BRow)
    (w : ℤ) : ℚ :=
  ((fetch_bandirma_events_for_window radius now store w).map fun r =>
    event_weight r.mag).sum / sqrtFn ((max w 1 : ℤ) : ℚ)

/-- `combined_score`: sum of the 90/30/7/1-day window scores. -/
def combined_score (sqrtFn : ℚ → ℚ) (radius : ℚ) (now : ℤ) (store : List BRow) : ℚ :=
  (([90, 30, 7, 1] : List ℤ).map (window_score sqrtFn radius now store)).sum

/-- The threshold part of `compute_alarm_status` (`main.py` lines
380-385): the level before the quick trigger is applied. -/
def windowed_level (oThr rThr score : ℚ) : Level :=
  if rThr ≤ score then .RED
  else if oThr ≤ score then .ORANGE
  else .NORMAL

/-- `compute_alarm_status` (`main.py` lines 342-400), reduced to the
`level` field of the returned dict: the windowed level, possibly raised by
the quick trigger. -/
def compute_alarm_status (sqrtFn : ℚ → ℚ) (quickHours : ℤ)
    (oQuick rQuick oThr rThr radius : ℚ) (now : ℤ) (store : List BRow) : Level :=
  let base := windowed_level oThr rThr (combined_score sqrtFn radius now store)
  match quick_trigger oQuick rQuick (max_mag_quick radius quickHours now store) with
  | some .RED => .RED
  | some .ORANGE => if base = .RED then .RED else .ORANGE
  | _ => base

/-- A row used by the C7 witness: a magnitude-7.0 event at the evaluation
instant. -/
def eRed : ARow := ⟨0, 0, 0, some 7⟩

/-! ## Geometry: the two haversine implementations

Python floats are modelled by `ℝ` here: the claim under study is about
exact real arithmetic. -/

/-- `math.radians(x)`. -/
noncomputable def radians (x : ℝ) : ℝ := x * (Real.pi / 180)

/-- `math.atan2(y, x)`: the four-quadrant arctangent (the IEEE signed-zero
distinctions collapse in `ℝ`). -/
noncomputable def atan2 (y x : ℝ) : ℝ :=
  if 0 < x then Real.arctan (y / x)
  else if x < 0 then
    (if 0 ≤ y then Real.arctan (y / x) + Real.pi else Real.arctan (y / x) - Real.pi)
  else if 0 < y then Real.pi / 2
  else if y < 0 then -(Real.pi / 2)
  else 0

/-- `haversine_km` of `main.py` (lines 49-56), asin formulation. The first
assignment to `a` (line 54, a self-described lint no-op) is dead code —
immediately overwritten by line 55 — so only the second assignment reaches
the result. -/
noncomputable def haversine_km_main (lat1 lon1 lat2 lon2 : ℝ) : ℝ :=
  let R : ℝ := 6371
  let p : ℝ := Real.pi / 180
  let dlat := (lat2 - lat1) * p
  let dlon := (lon2 - lon1) * p
  let a := Real.sin (dlat / 2) ^ 2 +
    Real.cos (lat1 * p) * Real.cos (lat2 * p) * Real.sin (dlon / 2) ^ 2
  2 * R * Real.arcsin (Real.sqrt a)

/-- `haversine_km` of `turkiye_alarm.py` (lines 58-67), atan2 formulation. -/
noncomputable def haversine_km_tur (lat1 lon1 lat2 lon2 : ℝ) : ℝ :=
  let R : ℝ := 6371
  let p1 := radians lat1
  let p2 := radians lat2
  let dphi := radians (lat2 - lat1)
  let dl := radians (lon2 - lon1)
  let a := Real.sin (dphi / 2) ^ 2 + Real.cos p1 * Real.cos p2 * Real.sin (dl / 2) ^ 2
  let c := 2 * atan2 (Real.sqrt a) (Real.sqrt (1 - a))
  R * c

lemma mem_upsert_of_mem (r : Row) :
    ∀ (es : List EventDict) (store : List Row), r ∈ store → r ∈ (upsert_events store es).1 := by
  intro es
  induction es with
  | nil => intro store h; simpa [upsert_events] using h
  | cons e es ih =>
    intro store h
    by_cases hmem : rowOf e ∈ store
    · simpa [upsert_events, hmem] using ih store h
    · simpa [upsert_events, hmem] using ih (store ++ [rowOf e]) (by simp [h])

lemma rowOf_mem_upsert :
    ∀ (es : List EventDict) (store : List Row) (e : EventDict),
      e ∈ es → rowOf e ∈ (upsert_events store es).1 := by
  intro es
  induction es with
  | nil => intro store e h; cases h
  | cons a as ih =>
    intro store e h
    rcases List.mem_cons.mp h with h | h
    · subst h
      by_cases hmem : rowOf e ∈ store
      · simpa [upsert_events, hmem] using mem_upsert_of_mem (rowOf e) as store hmem
      · simpa [upsert_events, hmem] using
          mem_upsert_of_mem (rowOf e) as (store ++ [rowOf e]) (by simp)
    · by_cases hmem : rowOf a ∈ store
      · simpa [upsert_events, hmem] using ih store e h
      · simpa [upsert_events, hmem] using ih (store ++ [rowOf a]) e h

lemma upsert_of_all_mem :
    ∀ (es : List EventDict) (store : List Row),
      (∀ e ∈ es, rowOf e ∈ store) → upsert_events store es = (store, 0) := by
  intro es
  induction es with
  | nil => intro store _; rfl
  | cons a as ih =>
    intro store h
    have ha : rowOf a ∈ store := h a (by simp)
    have := ih store (fun e he => h e (by simp [he]))
    simp [upsert_events, ha, this]

/-- Every row present after an upsert was either already stored or is the
bound tuple of one of the submitted events. -/
lemma mem_upsert_iff :
    ∀ (es : List EventDict) (store : List Row) (r : Row),
      r ∈ (upsert_events store es).1 → r ∈ store ∨ ∃ e ∈ es, r = rowOf e := by
  intro es
  induction es with
  | nil => intro store r h; exact Or.inl (by simpa [upsert_events] using h)
  | cons a as ih =>
    intro store r h
    by_cases hmem : rowOf a ∈ store
    · rcases ih store r (by simpa [upsert_events, hmem] using h) with h' | ⟨e, he, hr⟩
      · exact Or.inl h'
      · exact Or.inr ⟨e, by simp [he], hr⟩
    · rcases ih (store ++ [rowOf a]) r (by simpa [upsert_events, hmem] using h) with h' | ⟨e, he, hr⟩
      · rcases List.mem_append.mp h' with h' | h'
        · exact Or.inl h'
        · exact Or.inr ⟨a, by simp, by simpa using h'⟩
      · exact Or.inr ⟨e, by simp [he], hr⟩

/-- **C1.** Upsert is idempotent: running `upsert_events` a second time on
the same event list inserts 0 rows and leaves the stored rows unchanged. -/
theorem upsert_idempotent (store : List Row) (E : List EventDict) :
    upsert_events (upsert_events store E).1 E = ((upsert_events store E).1, 0) :=
  upsert_of_all_mem E (upsert_events store E).1
    (fun e he => rowOf_mem_upsert E store e he)

/-- **C10.** Every row bound by the `INSERT` has total (non-`NULL`) numeric
fields and a non-empty location: a missing / `None` / falsy `depth_km` or
`magnitude` is stored as `0.0`, a missing or empty location as `"-"`; and
every row an upsert adds to the store is such a bound tuple. -/
theorem upsert_row_defaults :
    (∀ e : EventDict,
      ((e.depth_km = none ∨ e.depth_km = some 0) → (rowOf e).depth_km = 0) ∧
      ((e.magnitude = none ∨ e.magnitude = some 0) → (rowOf e).magnitude = 0) ∧
      ((e.location = none ∨ e.location = some "") → (rowOf e).location = "-") ∧
      (rowOf e).location ≠ "") ∧
    (∀ (store : List Row) (es : List EventDict) (r : Row),
      r ∈ (upsert_events store es).1 → r ∈ store ∨ ∃ e ∈ es, r = rowOf e) := by
  constructor
  · intro e
    refine ⟨?_, ?_, ?_, ?_⟩
    · rintro (h | h) <;> simp [rowOf, pyOrQ, h]
    · rintro (h | h) <;> simp [rowOf, pyOrQ, h]
    · rintro (h | h) <;> simp [rowOf, pyOrLoc, h]
    · rcases e with ⟨t, la, lo, d, m, loc⟩
      rcases loc with _ | s
      · simp [rowOf, pyOrLoc]
      · by_cases hs : s = "" <;> simp [rowOf, pyOrLoc, hs]
  · exact fun store es r h => mem_upsert_iff es store r h

/-- Witness for C10 at a concrete event dict and a concrete upsert. -/
theorem upsert_row_defaults_witness :
    ((rowOf ⟨0, 1, 2, none, some 0, some ""⟩).depth_km = 0 ∧
     (rowOf ⟨0, 1, 2, none, some 0, some ""⟩).magnitude = 0 ∧
     (rowOf ⟨0, 1, 2, none, some 0, some ""⟩).location = "-" ∧
     (rowOf ⟨0, 1, 2, none, some 0, some ""⟩).location ≠ "") ∧
    (rowOf ⟨0, 1, 2, none, some 0, some ""⟩ ∈ ([] : List Row) ∨
      ∃ e ∈ [(⟨0, 1, 2, none, some 0, some ""⟩ : EventDict)],
        rowOf ⟨0, 1, 2, none, some 0, some ""⟩ = rowOf e) := by
  have h := upsert_row_defaults
  refine ⟨⟨(h.1 _).1 (Or.inl rfl), (h.1 _).2.1 (Or.inr rfl), (h.1 _).2.2.1 (Or.inr rfl),
    (h.1 _).2.2.2⟩, ?_⟩
  exact h.2 [] [⟨0, 1, 2, none, some 0, some ""⟩] _ (by decide)

lemma newestFirst_trans (a b c : Row) :
    newestFirst a b → newestFirst b c → newestFirst a c := by
  simp only [newestFirst, decide_eq_true_eq]
  exact fun h h' => le_trans h' h

lemma newestFirst_total (a b : Row) : newestFirst a b || newestFirst b a := by
  simp only [newestFirst, Bool.or_eq_true, decide_eq_true_eq]
  exact le_total b.event_time a.event_time

/-- **C2.** After `enforce_capacity N`, the store holds `min N count` rows
(hence at most `N`), the call returns the number of deleted rows
(`count - min N count`), and the retained rows are exactly the `N` most
recent by `event_time`: the store splits, up to permutation, into the kept
rows and the deleted rows, and every deleted row's `event_time` is at most
every kept row's `event_time`. -/
theorem enforce_capacity_spec (N : ℕ) (store : List Row) :
    (enforce_capacity N store).1.length = min N store.length ∧
    (enforce_capacity N store).1.length ≤ N ∧
    (enforce_capacity N store).2 = store.length - min N store.length ∧
    ∃ dropped : List Row,
      store.Perm ((enforce_capacity N store).1 ++ dropped) ∧
      dropped.length = (enforce_capacity N store).2 ∧
      ∀ x ∈ (enforce_capacity N store).1, ∀ y ∈ dropped,
        y.event_time ≤ x.event_time := by
  by_cases h : store.length ≤ N
  · have hmin : min N store.length = store.length := min_eq_right h
    refine ⟨by simp [enforce_capacity, h, hmin], by simp [enforce_capacity, h],
      by simp [enforce_capacity, h, hmin], [], ?_, by simp [enforce_capacity, h], ?_⟩
    · simp [enforce_capacity, h]
    · intro x _ y hy; cases hy
  · have hlt : N < store.length := Nat.lt_of_not_le h
    have hperm : (store.mergeSort newestFirst).Perm store :=
      List.mergeSort_perm store newestFirst
    have hlen : (store.mergeSort newestFirst).length = store.length :=
      hperm.length_eq
    have hsorted : (store.mergeSort newestFirst).Pairwise (newestFirst · ·) :=
      List.sorted_mergeSort newestFirst_trans newestFirst_total store
    have hsplit : store.mergeSort newestFirst =
        (store.mergeSort newestFirst).take N ++ (store.mergeSort newestFirst).drop N :=
      (List.take_append_drop N _).symm
    have hmin : min N store.length = N := min_eq_left (le_of_lt hlt)
    refine ⟨?_, ?_, by simp [enforce_capacity, h, hmin],
      (store.mergeSort newestFirst).drop N, ?_, ?_, ?_⟩
    · simp [enforce_capacity, h, hlen, hmin]
    · simp [enforce_capacity, h]
    · simpa [enforce_capacity, h] using hperm.symm
    · simp [enforce_capacity, h, hlen, hmin]
    · intro x hx y hy
      have hpw : ((store.mergeSort newestFirst).take N ++
          (store.mergeSort newestFirst).drop N).Pairwise (newestFirst · ·) := by
        rw [← hsplit]; exact hsorted
      have := (List.pairwise_append.mp hpw).2.2 x (by simpa [enforce_capacity, h] using hx) y hy
      simpa [newestFirst, decide_eq_true_eq] using this

/-! ## Parsing claims -/

/-- **C4 (counterexample).** The claim says a line whose latitude lies
outside `±90` is skipped; the code performs no range check: on a
well-formed line with latitude `95.0`, `parse_line` produces an event. -/
theorem parse_line_lat_cex :
    parse_line badLatLine = some eBadLat ∧ eBadLat.latitude = 95 ∧ ¬((95 : ℚ) ≤ 90) := by
  refine ⟨by with_unfolding_all rfl, rfl, by norm_num⟩

/-- **C4 (amended).** `parse_line` skips a line exactly when it has fewer
than 9 tokens, or the date/time tokens fail their regex or `strptime`
validation, or latitude, longitude or depth is not float-convertible, or no
magnitude candidate in `[0, 10]` exists at positions 5..11; no
latitude/longitude range check is performed, and in all other cases an
event is produced (the function is total, so the batch never aborts). -/
theorem parse_line_skip_iff (parts : List String) :
    parse_line parts = none ↔
      parts.length < 9 ∨ date_time_ok parts = false ∨
      pyFloat? (parts.getD 2 "") = none ∨ pyFloat? (parts.getD 3 "") = none ∨
      pyFloat? (parts.getD 4 "") = none ∨ findMag parts = none := by
  unfold parse_line date_time_ok
  by_cases hl : parts.length < 9
  · simp [hl]
  · simp only [hl, if_false]
    rcases hd : parseDate (parts.getD 0 "") with _ | ⟨y, mo, da⟩
    · simp
    rcases ht : parseTime (parts.getD 1 "") with _ | ⟨hh, mi, s⟩
    · simp
    rcases h2 : pyFloat? (parts.getD 2 "") with _ | lat
    · simp
    rcases h3 : pyFloat? (parts.getD 3 "") with _ | lon
    · simp
    rcases h4 : pyFloat? (parts.getD 4 "") with _ | dep
    · simp
    rcases hm : findMag parts with _ | mag
    · simp
    by_cases hv : validDateTime y mo da hh mi s <;> simp [hv]

/-- **C8.** For every successfully parsed line, the stored `event_time` is
the feed's local timestamp interpreted at the fixed UTC+3 offset and
converted to UTC: it equals the epoch value of the parsed civil fields
minus 3 hours. -/
theorem parse_line_utc_offset (parts : List String) (e : EventDict)
    (hp : parse_line parts = some e) :
    ∃ y m d h mi s, parseDate (parts.getD 0 "") = some (y, m, d) ∧
      parseTime (parts.getD 1 "") = some (h, mi, s) ∧
      e.event_time = civilEpochSec y m d h mi s - 3 * 3600 := by
  unfold parse_line at hp
  by_cases hl : parts.length < 9
  · simp [hl] at hp
  · simp only [hl, if_false] at hp
    rcases hd : parseDate (parts.getD 0 "") with _ | ⟨y, mo, da⟩ <;> rw [hd] at hp
    · simp at hp
    rcases ht : parseTime (parts.getD 1 "") with _ | ⟨hh, mi, s⟩ <;> rw [ht] at hp
    · simp at hp
    rcases h2 : pyFloat? (parts.getD 2 "") with _ | lat <;> rw [h2] at hp
    · simp at hp
    rcases h3 : pyFloat? (parts.getD 3 "") with _ | lon <;> rw [h3] at hp
    · simp at hp
    rcases h4 : pyFloat? (parts.getD 4 "") with _ | dep <;> rw [h4] at hp
    · simp at hp
    rcases hm : findMag parts with _ | mag <;> rw [hm] at hp
    · simp at hp
    by_cases hv : validDateTime y mo da hh mi s
    · simp only [hv, if_true, Option.some.injEq] at hp
      exact ⟨y, mo, da, hh, mi, s, rfl, rfl, by rw [← hp]⟩
    · simp [hv] at hp

/-- Witness for C8 on a concrete feed line. -/
theorem parse_line_utc_offset_witness :
    ∃ y m d h mi s, parseDate (goodLine.getD 0 "") = some (y, m, d) ∧
      parseTime (goodLine.getD 1 "") = some (h, mi, s) ∧
      eGood.event_time = civilEpochSec y m d h mi s - 3 * 3600 :=
  parse_line_utc_offset goodLine eGood (by with_unfolding_all rfl)

/-- Upserting exactly two events into an empty store: the second is ignored
precisely when its bound tuple equals the first's. -/
lemma upsert_pair (e1 e2 : EventDict) :
    upsert_events [] [e1, e2] =
      if rowOf e2 = rowOf e1 then ([rowOf e1], 1) else ([rowOf e1, rowOf e2], 2) := by
  by_cases h : rowOf e2 = rowOf e1 <;> simp [upsert_events, h]

/-- **C3 (counterexample).** Two parsed records identical in every claimed
rounded component (latitudes `40.35221` and `40.35222` agree after
4-decimal rounding, all other fields equal) nevertheless do not collapse:
upserting both stores two rows, because the unique index uses the raw
values. -/
theorem fingerprint_rounding_cex :
    parse_line lineA = some eA ∧ parse_line lineB = some eB ∧
    fingerprint_spec (rowOf eA) = fingerprint_spec (rowOf eB) ∧
    (upsert_events [] [eA, eB]).1.length = 2 ∧
    (upsert_events [] [eA, eB]).2 = 2 := by
  have hne : rowOf eB ≠ rowOf eA := by
    intro h
    have := congrArg Row.latitude h
    simp only [rowOf, eA, eB] at this
    norm_num at this
  refine ⟨by with_unfolding_all rfl, by with_unfolding_all rfl,
    by with_unfolding_all rfl, ?_, ?_⟩ <;> simp [upsert_pair, hne]

/-- **C3 (amended).** The dedup key is the exact raw tuple of inserted
values — no rounding: two records collapse to a single stored row exactly
when their raw tuples coincide, and parsing the same line twice yields the
same key (parsing is deterministic). -/
theorem dedup_key_exact (e1 e2 : EventDict) (parts : List String) :
    ((upsert_events [] [e1, e2]).1.length = 1 ↔ rowOf e1 = rowOf e2) ∧
    ((upsert_events [] [e1, e2]).1.length = 2 ↔ rowOf e1 ≠ rowOf e2) ∧
    (∀ a b : EventDict, parse_line parts = some a → parse_line parts = some b →
      rowOf a = rowOf b) := by
  refine ⟨?_, ?_, ?_⟩
  · rcases eq_or_ne (rowOf e2) (rowOf e1) with h | h
    · rw [upsert_pair, if_pos h]; simp [h.symm]
    · have h' : rowOf e1 ≠ rowOf e2 := fun hh => h hh.symm
      rw [upsert_pair, if_neg h]; simp [h']
  · rcases eq_or_ne (rowOf e2) (rowOf e1) with h | h
    · rw [upsert_pair, if_pos h]; simp [h.symm]
    · have h' : rowOf e1 ≠ rowOf e2 := fun hh => h hh.symm
      rw [upsert_pair, if_neg h]; simp [h']
  · intro a b ha hb
    rw [ha, Option.some.injEq] at hb
    rw [hb]

/-- Witness for the amended C3 on concrete inputs. -/
theorem dedup_key_exact_witness :
    (upsert_events [] [eGood, eGood]).1.length = 1 ∧ rowOf eGood = rowOf eGood := by
  have h := dedup_key_exact eGood eGood goodLine
  exact ⟨h.1.mpr rfl, h.2.2 eGood eGood (by with_unfolding_all rfl) (by with_unfolding_all rfl)⟩

/-! ## Alarm-rule claims -/

lemma turkey_status_eq (now : ℤ) (rows : List ARow) :
    (turkey_cluster_alert now rows).1 =
      if turkeyRed now rows then Status.KIRMIZI
      else if turkeyOrange now rows then Status.TURUNCU
      else Status.YOK := by
  unfold turkey_cluster_alert turkeyRed turkeyOrange
  by_cases h1 : 40 ≤ magCount (tr24 now rows) 3 ∧ 4 ≤ magMax (tr24 now rows) <;>
  by_cases h2 : 25 ≤ magCount (tr7 now rows) 3 ∧ 2 ≤ magCount (tr7 now rows) 4 <;>
  by_cases h3 : 1 ≤ magCount rows 5 <;>
  by_cases h4 : 1 ≤ magCount (tr7 now rows) (13/2) <;>
  by_cases h5 : 2 ≤ magCount rows (29/5) <;>
  by_cases h6 : 10 ≤ magCount (tr24 now rows) 4 <;>
  simp [h1, h2, h3, h4, h5, h6]

lemma turkey_red_reasons (now : ℤ) (rows : List ARow) :
    (TReason.r7d ∈ (turkey_cluster_alert now rows).2.2.1 ↔
      1 ≤ magCount (tr7 now rows) (13/2)) ∧
    (TReason.r30d ∈ (turkey_cluster_alert now rows).2.2.1 ↔
      2 ≤ magCount rows (29/5)) ∧
    (TReason.r24h ∈ (turkey_cluster_alert now rows).2.2.1 ↔
      10 ≤ magCount (tr24 now rows) 4) := by
  unfold turkey_cluster_alert
  by_cases h4 : 1 ≤ magCount (tr7 now rows) (13/2) <;>
  by_cases h5 : 2 ≤ magCount rows (29/5) <;>
  by_cases h6 : 10 ≤ magCount (tr24 now rows) 4 <;>
  simp [h4, h5, h6]

lemma turkey_orange_reasons (now : ℤ) (rows : List ARow) :
    (TReason.o24h ∈ (turkey_cluster_alert now rows).2.1 ↔
      40 ≤ magCount (tr24 now rows) 3 ∧ 4 ≤ magMax (tr24 now rows)) ∧
    (TReason.o7d ∈ (turkey_cluster_alert now rows).2.1 ↔
      25 ≤ magCount (tr7 now rows) 3 ∧ 2 ≤ magCount (tr7 now rows) 4) ∧
    (TReason.o30d ∈ (turkey_cluster_alert now rows).2.1 ↔
      1 ≤ magCount rows 5) := by
  unfold turkey_cluster_alert
  by_cases h1 : 40 ≤ magCount (tr24 now rows) 3 ∧ 4 ≤ magMax (tr24 now rows) <;>
  by_cases h2 : 25 ≤ magCount (tr7 now rows) 3 ∧ 2 ≤ magCount (tr7 now rows) 4 <;>
  by_cases h3 : 1 ≤ magCount rows 5 <;>
  simp [h1, h2, h3]

lemma status_of_lists (Lr Lo : List ARow) :
    (((if Lr ≠ [] then Status.KIRMIZI else if Lo ≠ [] then Status.TURUNCU
        else Status.YOK) = Status.KIRMIZI) ↔ Lr.length ≠ 0) ∧
    (((if Lr ≠ [] then Status.KIRMIZI else if Lo ≠ [] then Status.TURUNCU
        else Status.YOK) = Status.TURUNCU) ↔ Lr.length = 0 ∧ Lo.length ≠ 0) ∧
    (((if Lr ≠ [] then Status.KIRMIZI else if Lo ≠ [] then Status.TURUNCU
        else Status.YOK) = Status.YOK) ↔ Lr.length = 0 ∧ Lo.length = 0) := by
  by_cases h1 : Lr = [] <;> by_cases h2 : Lo = [] <;>
    simp [h1, h2, List.length_eq_zero]

lemma bandirma_status_iff (inRadius : ARow → Bool) (now : ℤ) (rows : List ARow) :
    ((bandirma_alert inRadius now rows).1 = Status.KIRMIZI ↔
      (bandirma_alert inRadius now rows).2.2.2.red_hits ≠ 0) ∧
    ((bandirma_alert inRadius now rows).1 = Status.TURUNCU ↔
      (bandirma_alert inRadius now rows).2.2.2.red_hits = 0 ∧
      (bandirma_alert inRadius now rows).2.2.2.orange_hits ≠ 0) ∧
    ((bandirma_alert inRadius now rows).1 = Status.YOK ↔
      (bandirma_alert inRadius now rows).2.2.2.red_hits = 0 ∧
      (bandirma_alert inRadius now rows).2.2.2.orange_hits = 0) :=
  status_of_lists _ _

/-- **C5.** The evaluator yields red exactly when at least one red
condition holds (regardless of orange conditions), orange exactly when no
red condition but at least one orange condition holds, and no alarm when
none holds; each matched rule contributes its reason entry (for the fixed
Bandırma evaluator, hit counts play the role of the reason lists). -/
theorem alarm_level_rules (now : ℤ) (rows : List ARow) (inRadius : ARow → Bool) :
    ((turkey_cluster_alert now rows).1 = Status.KIRMIZI ↔ turkeyRed now rows) ∧
    ((turkey_cluster_alert now rows).1 = Status.TURUNCU ↔
      ¬turkeyRed now rows ∧ turkeyOrange now rows) ∧
    ((turkey_cluster_alert now rows).1 = Status.YOK ↔
      ¬turkeyRed now rows ∧ ¬turkeyOrange now rows) ∧
    (TReason.r7d ∈ (turkey_cluster_alert now rows).2.2.1 ↔
      1 ≤ magCount (tr7 now rows) (13/2)) ∧
    (TReason.r30d ∈ (turkey_cluster_alert now rows).2.2.1 ↔
      2 ≤ magCount rows (29/5)) ∧
    (TReason.r24h ∈ (turkey_cluster_alert now rows).2.2.1 ↔
      10 ≤ magCount (tr24 now rows) 4) ∧
    (TReason.o24h ∈ (turkey_cluster_alert now rows).2.1 ↔
      40 ≤ magCount (tr24 now rows) 3 ∧ 4 ≤ magMax (tr24 now rows)) ∧
    (TReason.o7d ∈ (turkey_cluster_alert now rows).2.1 ↔
      25 ≤ magCount (tr7 now rows) 3 ∧ 2 ≤ magCount (tr7 now rows) 4) ∧
    (TReason.o30d ∈ (turkey_cluster_alert now rows).2.1 ↔
      1 ≤ magCount rows 5) ∧
    ((bandirma_alert inRadius now rows).1 = Status.KIRMIZI ↔
      (bandirma_alert inRadius now rows).2.2.2.red_hits ≠ 0) ∧
    ((bandirma_alert inRadius now rows).1 = Status.TURUNCU ↔
      (bandirma_alert inRadius now rows).2.2.2.red_hits = 0 ∧
      (bandirma_alert inRadius now rows).2.2.2.orange_hits ≠ 0) ∧
    ((bandirma_alert inRadius now rows).1 = Status.YOK ↔
      (bandirma_alert inRadius now rows).2.2.2.red_hits = 0 ∧
      (bandirma_alert inRadius now rows).2.2.2.orange_hits = 0) := by
  refine ⟨?_, ?_, ?_, (turkey_red_reasons now rows).1, (turkey_red_reasons now rows).2.1,
    (turkey_red_reasons now rows).2.2, (turkey_orange_reasons now rows).1,
    (turkey_orange_reasons now rows).2.1, (turkey_orange_reasons now rows).2.2,
    (bandirma_status_iff inRadius now rows).1, (bandirma_status_iff inRadius now rows).2.1,
    (bandirma_status_iff inRadius now rows).2.2⟩ <;>
  · rw [turkey_status_eq]
    by_cases hr : turkeyRed now rows <;> by_cases ho : turkeyOrange now rows <;>
      simp [hr, ho]

/-! Monotonicity machinery for C7. -/

lemma foldl_max_init_le (l : List ℚ) : ∀ init : ℚ, init ≤ l.foldl max init := by
  induction l with
  | nil => intro init; simp
  | cons a l ih =>
    intro init
    calc init ≤ max init a := le_max_left _ _
    _ ≤ l.foldl max (max init a) := ih _

lemma le_foldl_max_of_mem {x : ℚ} (l : List ℚ) :
    ∀ init : ℚ, x ∈ l → x ≤ l.foldl max init := by
  induction l with
  | nil => intro _ h; cases h
  | cons a l ih =>
    intro init h
    rcases List.mem_cons.mp h with h | h
    · subst h
      calc x ≤ max init x := le_max_right _ _
      _ ≤ l.foldl max (max init x) := foldl_max_init_le l _
    · exact ih _ h

lemma foldl_max_mem (l : List ℚ) :
    ∀ init : ℚ, l.foldl max init = init ∨ l.foldl max init ∈ l := by
  induction l with
  | nil => intro _; exact Or.inl rfl
  | cons a l ih =>
    intro init
    rcases ih (max init a) with h | h
    · rcases max_choice init a with hm | hm
      · exact Or.inl (by rw [List.foldl_cons, h, hm])
      · exact Or.inr (by rw [List.foldl_cons, h, hm]; exact List.mem_cons_self a l)
    · exact Or.inr (List.mem_cons_of_mem a h)

lemma le_pyMax_of_mem {x : ℚ} {l : List ℚ} (h : x ∈ l) : x ≤ pyMax l := by
  match l with
  | [] => cases h
  | m :: ms =>
    rcases List.mem_cons.mp h with h | h
    · subst h; exact foldl_max_init_le ms x
    · exact le_foldl_max_of_mem ms m h

lemma pyMax_mem {l : List ℚ} (h : l ≠ []) : pyMax l ∈ l := by
  match l with
  | [] => exact absurd rfl h
  | m :: ms =>
    show ms.foldl max m ∈ m :: ms
    rcases foldl_max_mem ms m with h' | h'
    · rw [h']; exact List.mem_cons_self m ms
    · exact List.mem_cons_of_mem m h'

lemma magCount_append (l1 l2 : List ARow) (thr : ℚ) :
    magCount (l1 ++ l2) thr = magCount l1 thr + magCount l2 thr :=
  List.countP_append _ _ _

lemma tr24_append (now : ℤ) (l1 l2 : List ARow) :
    tr24 now (l1 ++ l2) = tr24 now l1 ++ tr24 now l2 :=
  List.filter_append _ _

lemma tr7_append (now : ℤ) (l1 l2 : List ARow) :
    tr7 now (l1 ++ l2) = tr7 now l1 ++ tr7 now l2 :=
  List.filter_append _ _

lemma magMax_ge_append (l1 l2 : List ARow) {c : ℚ} (hc : 0 < c)
    (h : c ≤ magMax l1) : c ≤ magMax (l1 ++ l2) := by
  have hne : l1.filterMap (·.magnitude) ≠ [] := by
    intro hnil
    rw [magMax, hnil] at h
    simp only [pyMax] at h
    exact absurd (lt_of_lt_of_le hc h) (lt_irrefl 0)
  have hmem : pyMax (l1.filterMap (·.magnitude)) ∈ (l1 ++ l2).filterMap (·.magnitude) := by
    rw [List.filterMap_append]
    exact List.mem_append_left _ (pyMax_mem hne)
  exact le_trans h (le_pyMax_of_mem hmem)

lemma turkeyRed_mono (now : ℤ) (l1 l2 : List ARow) (h : turkeyRed now l1) :
    turkeyRed now (l1 ++ l2) := by
  unfold turkeyRed at h ⊢
  rw [tr7_append, tr24_append, magCount_append, magCount_append, magCount_append]
  rcases h with h | h | h
  · exact Or.inl (by omega)
  · exact Or.inr (Or.inl (by omega))
  · exact Or.inr (Or.inr (by omega))

lemma turkeyOrange_mono (now : ℤ) (l1 l2 : List ARow) (h : turkeyOrange now l1) :
    turkeyOrange now (l1 ++ l2) := by
  unfold turkeyOrange at h ⊢
  rw [tr7_append, tr24_append, magCount_append, magCount_append, magCount_append,
    magCount_append]
  rcases h with ⟨h, h'⟩ | ⟨h, h'⟩ | h
  · exact Or.inl ⟨by omega, magMax_ge_append _ _ (by norm_num) h'⟩
  · exact Or.inr (Or.inl ⟨by omega, by omega⟩)
  · exact Or.inr (Or.inr (by omega))

/-- **C7.** Severity is monotone in added events: appending events never
lowers the evaluated level, and adding a single event satisfying the red
`count(M ≥ 6.5, 7d) ≥ 1` condition to a set evaluating to no-alarm raises
the level to red. -/
theorem turkey_alert_monotone (now : ℤ) (rows extra : List ARow) (e : ARow) (m : ℚ) :
    (turkey_cluster_alert now rows).1.rank ≤
      (turkey_cluster_alert now (rows ++ extra)).1.rank ∧
    ((turkey_cluster_alert now rows).1 = Status.YOK → e.magnitude = some m →
      13/2 ≤ m → now - 7 * 86400 ≤ e.dt →
      (turkey_cluster_alert now (rows ++ [e])).1 = Status.KIRMIZI) := by
  constructor
  · rw [turkey_status_eq, turkey_status_eq]
    by_cases hr : turkeyRed now rows
    · simp [hr, turkeyRed_mono now rows extra hr]
    · by_cases ho : turkeyOrange now rows
      · have h2 := turkeyOrange_mono now rows extra ho
        by_cases hr2 : turkeyRed now (rows ++ extra) <;>
          simp [hr, ho, hr2, h2, Status.rank]
      · simp only [hr, ho, if_false]
        exact Nat.zero_le _
  · intro _ hm hge hdt
    rw [turkey_status_eq]
    have hred : turkeyRed now (rows ++ [e]) := by
      left
      have he : e ∈ tr7 now (rows ++ [e]) := by
        unfold tr7
        rw [List.mem_filter]
        exact ⟨by simp, by simpa using hdt⟩
      have hpos : 0 < magCount (tr7 now (rows ++ [e])) (13/2) := by
        rw [magCount, List.countP_pos_iff]
        refine ⟨e, he, ?_⟩
        rw [hm]
        simpa using hge
      omega
    simp [hred]

/-- Witness for C7: the empty row set evaluates to no alarm and adding one
magnitude-7.0 event inside the 7-day window turns the status red. -/
theorem turkey_alert_monotone_witness :
    (turkey_cluster_alert 0 []).1.rank ≤ (turkey_cluster_alert 0 ([] ++ [eRed])).1.rank ∧
    (turkey_cluster_alert 0 ([] ++ [eRed])).1 = Status.KIRMIZI := by
  have h := turkey_alert_monotone 0 [] [eRed] eRed 7
  exact ⟨h.1, h.2 (by with_unfolding_all rfl) rfl (by norm_num) (by norm_num [eRed])⟩

/-! Quick-trigger claim. -/

lemma quick_hours_le_days (H : ℤ) :
    H * 3600 ≤ quick_days H * 86400 := by
  have h1 : (H : ℚ) / 24 ≤ (⌈(H : ℚ) / 24⌉ : ℚ) := Int.le_ceil _
  have h2 : (H : ℚ) ≤ (⌈(H : ℚ) / 24⌉ : ℚ) * 24 := (div_le_iff₀ (by norm_num)).mp h1
  have h3 : H ≤ ⌈(H : ℚ) / 24⌉ * 24 := by exact_mod_cast h2
  have h4 : ⌈(H : ℚ) / 24⌉ ≤ quick_days H := le_max_right _ _
  unfold quick_days at h4 ⊢
  omega

/-- **C6.** The quick trigger: any single event within the last `H` hours
and inside the radius with magnitude ≥ the red quick threshold forces
level red; a quick maximum at or above the orange threshold but below the
red one yields orange unless the windowed evaluation already yielded red;
and the quick trigger never lowers the windowed level. -/
theorem compute_alarm_quick (sqrtFn : ℚ → ℚ) (H : ℤ) (oQ rQ oT rT radius : ℚ)
    (now : ℤ) (store : List BRow) :
    ((∃ r ∈ store, r.dist ≤ radius ∧ now - H * 3600 ≤ r.t ∧ rQ ≤ r.mag) →
      compute_alarm_status sqrtFn H oQ rQ oT rT radius now store = Level.RED) ∧
    (oQ ≤ max_mag_quick radius H now store → max_mag_quick radius H now store < rQ →
      compute_alarm_status sqrtFn H oQ rQ oT rT radius now store =
        (if windowed_level oT rT (combined_score sqrtFn radius now store) = Level.RED
          then Level.RED else Level.ORANGE)) ∧
    (windowed_level oT rT (combined_score sqrtFn radius now store)).rank ≤
      (compute_alarm_status sqrtFn H oQ rQ oT rT radius now store).rank := by
  refine ⟨?_, ?_, ?_⟩
  · rintro ⟨r, hr, hdist, ht, hmag⟩
    have hfetch : r ∈ fetch_bandirma_events_for_window radius now store (quick_days H) := by
      unfold fetch_bandirma_events_for_window
      rw [List.mem_filter, List.mem_filter]
      refine ⟨⟨hr, ?_⟩, by simpa using hdist⟩
      have := quick_hours_le_days H
      simp only [decide_eq_true_eq]
      omega
    have hmem : r.mag ∈ ((fetch_bandirma_events_for_window radius now store
        (quick_days H)).filter fun x => now - H * 3600 ≤ x.t).map (·.mag) :=
      List.mem_map_of_mem _ (List.mem_filter.mpr ⟨hfetch, by simpa using ht⟩)
    have hmax : rQ ≤ max_mag_quick radius H now store :=
      le_trans hmag (le_pyMax_of_mem hmem)
    unfold compute_alarm_status quick_trigger
    rw [if_pos hmax]
  · intro ho hlt
    unfold compute_alarm_status quick_trigger
    rw [if_neg (not_le.mpr hlt), if_pos ho]
  · unfold compute_alarm_status
    generalize windowed_level oT rT (combined_score sqrtFn radius now store) = b
    rcases quick_trigger oQ rQ (max_mag_quick radius H now store) with _ | lev
    · exact le_rfl
    · rcases lev with _ | _ | _
      · exact le_rfl
      · rcases b with _ | _ | _ <;> simp [Level.rank]
      · rcases b with _ | _ | _ <;> simp [Level.rank]

/-- Witness for C6: a single magnitude-6.0 event one hour old and 50 km
from the center forces a red level with the default thresholds. -/
theorem compute_alarm_quick_witness :
    compute_alarm_status (fun _ => 1) 24 (9/2) 5 6 10 100 0 [⟨-3600, 6, 50⟩] = Level.RED :=
  (compute_alarm_quick (fun _ => 1) 24 (9/2) 5 6 10 100 0 [⟨-3600, 6, 50⟩]).1
    ⟨⟨-3600, 6, 50⟩, by simp, by norm_num, by norm_num, by norm_num⟩

/-! ## Geometry claims -/

lemma hav_core_bounds (φ1 φ2 y : ℝ) :
    0 ≤ Real.sin ((φ2 - φ1) / 2) ^ 2 + Real.cos φ1 * Real.cos φ2 * Real.sin y ^ 2 ∧
    Real.sin ((φ2 - φ1) / 2) ^ 2 + Real.cos φ1 * Real.cos φ2 * Real.sin y ^ 2 ≤ 1 := by
  have e1 : Real.sin ((φ2 - φ1) / 2) ^ 2 = 1 / 2 - Real.cos (φ2 - φ1) / 2 := by
    calc Real.sin ((φ2 - φ1) / 2) ^ 2
        = 1 / 2 - Real.cos (2 * ((φ2 - φ1) / 2)) / 2 := Real.sin_sq_eq_half_sub _
      _ = 1 / 2 - Real.cos (φ2 - φ1) / 2 := by
          rw [show (2 : ℝ) * ((φ2 - φ1) / 2) = φ2 - φ1 by ring]
  have e2 : Real.cos (φ2 - φ1) = Real.cos φ2 * Real.cos φ1 + Real.sin φ2 * Real.sin φ1 :=
    Real.cos_sub φ2 φ1
  have e3 : Real.cos (φ2 + φ1) = Real.cos φ2 * Real.cos φ1 - Real.sin φ2 * Real.sin φ1 :=
    Real.cos_add φ2 φ1
  have h0s : (0 : ℝ) ≤ Real.sin y ^ 2 := sq_nonneg _
  have h1s : Real.sin y ^ 2 ≤ 1 := Real.sin_sq_le_one y
  have h0u : (0 : ℝ) ≤ Real.sin ((φ2 - φ1) / 2) ^ 2 := sq_nonneg _
  have h1u : Real.sin ((φ2 - φ1) / 2) ^ 2 ≤ 1 := Real.sin_sq_le_one _
  have hcl : Real.cos (φ2 + φ1) ≤ 1 := Real.cos_le_one _
  have hcg : -1 ≤ Real.cos (φ2 + φ1) := Real.neg_one_le_cos _
  have huc0 : 0 ≤ Real.sin ((φ2 - φ1) / 2) ^ 2 + Real.cos φ1 * Real.cos φ2 := by
    nlinarith [e1, e2, e3, hcg]
  have huc1 : Real.sin ((φ2 - φ1) / 2) ^ 2 + Real.cos φ1 * Real.cos φ2 ≤ 1 := by
    nlinarith [e1, e2, e3, hcl]
  constructor
  · nlinarith [mul_nonneg (sub_nonneg.mpr h1s) h0u, mul_nonneg h0s huc0]
  · nlinarith [mul_nonneg (sub_nonneg.mpr h1s) (sub_nonneg.mpr h1u),
      mul_nonneg h0s (sub_nonneg.mpr huc1)]

lemma arcsin_sqrt_eq_atan2 {A : ℝ} (h0 : 0 ≤ A) (h1 : A ≤ 1) :
    Real.arcsin (Real.sqrt A) = atan2 (Real.sqrt A) (Real.sqrt (1 - A)) := by
  rcases eq_or_lt_of_le h1 with h | h
  · rw [h]
    norm_num [atan2, Real.sqrt_one, Real.arcsin_one]
  · have hx : 0 < Real.sqrt (1 - A) := Real.sqrt_pos.mpr (by linarith)
    have hlt : Real.sqrt A < 1 := by
      calc Real.sqrt A < Real.sqrt 1 := Real.sqrt_lt_sqrt h0 h
        _ = 1 := Real.sqrt_one
    unfold atan2
    rw [if_pos hx]
    have harc := Real.arcsin_eq_arctan
      (Set.mem_Ioo.mpr ⟨lt_of_lt_of_le (by norm_num) (Real.sqrt_nonneg A), hlt⟩)
    rw [harc, Real.sq_sqrt h0]

/-- **C9.** The two haversine implementations agree everywhere over exact
real arithmetic (the dead first assignment in `main.py`'s version being
overwritten), each is symmetric under swapping the two points, and each
vanishes on identical points. -/
theorem haversine_equiv (lat1 lon1 lat2 lon2 x y : ℝ) :
    haversine_km_main lat1 lon1 lat2 lon2 = haversine_km_tur lat1 lon1 lat2 lon2 ∧
    haversine_km_main lat1 lon1 lat2 lon2 = haversine_km_main lat2 lon2 lat1 lon1 ∧
    haversine_km_tur lat1 lon1 lat2 lon2 = haversine_km_tur lat2 lon2 lat1 lon1 ∧
    haversine_km_main x y x y = 0 ∧
    haversine_km_tur x y x y = 0 := by
  have hsym : ∀ a1 b1 a2 b2 : ℝ,
      Real.sin ((a1 - a2) * (Real.pi / 180) / 2) ^ 2 +
        Real.cos (a2 * (Real.pi / 180)) * Real.cos (a1 * (Real.pi / 180)) *
          Real.sin ((b1 - b2) * (Real.pi / 180) / 2) ^ 2 =
      Real.sin ((a2 - a1) * (Real.pi / 180) / 2) ^ 2 +
        Real.cos (a1 * (Real.pi / 180)) * Real.cos (a2 * (Real.pi / 180)) *
          Real.sin ((b2 - b1) * (Real.pi / 180) / 2) ^ 2 := by
    intro a1 b1 a2 b2
    rw [show (a1 - a2) * (Real.pi / 180) / 2 = -((a2 - a1) * (Real.pi / 180) / 2) by ring,
      show (b1 - b2) * (Real.pi / 180) / 2 = -((b2 - b1) * (Real.pi / 180) / 2) by ring,
      Real.sin_neg, Real.sin_neg]
    ring
  have hb := hav_core_bounds (lat1 * (Real.pi / 180)) (lat2 * (Real.pi / 180))
    ((lon2 - lon1) * (Real.pi / 180) / 2)
  rw [show (lat2 * (Real.pi / 180) - lat1 * (Real.pi / 180)) / 2 =
      (lat2 - lat1) * (Real.pi / 180) / 2 by ring] at hb
  refine ⟨?_, ?_, ?_, ?_, ?_⟩
  · show 2 * 6371 * Real.arcsin (Real.sqrt _) = 6371 * (2 * atan2 (Real.sqrt _) (Real.sqrt (1 - _)))
    rw [arcsin_sqrt_eq_atan2 hb.1 hb.2]
    unfold radians
    ring
  · show 2 * 6371 * Real.arcsin (Real.sqrt _) = 2 * 6371 * Real.arcsin (Real.sqrt _)
    rw [hsym lat2 lon2 lat1 lon1]
  · show 6371 * (2 * atan2 (Real.sqrt _) (Real.sqrt (1 - _))) =
      6371 * (2 * atan2 (Real.sqrt _) (Real.sqrt (1 - _)))
    unfold radians
    rw [hsym lat2 lon2 lat1 lon1]
  · show 2 * 6371 * Real.arcsin (Real.sqrt _) = 0
    simp
  · show 6371 * (2 * atan2 (Real.sqrt _) (Real.sqrt (1 - _))) = 0
    unfold radians
    simp [atan2, Real.arctan_zero]

end Deprem
